import Mathlib

/-!
# Verification of the Depixilation training / inference utilities

Shallow embedding of `src/utils.py` (functions `training_loop`,
`test_loop_serialized`, `visualize_flat_u8int`) together with proofs about
the embedded definitions.

Modelling conventions:
* Python floats are modelled as rationals (`ℚ`); the numeric claims checked
  here involve only exactly-representable values.
* Python exceptions are modelled with `Except PyError`.
* Side effects (device moves, checkpoint writes, plot writes, forward passes)
  are modelled as an explicit event trace.
* External torch collaborators (the network forward pass, the optimizer step,
  `torch.manual_seed` / `random_split` / `DataLoader` shuffling) are abstract
  parameters; the control flow around them is translated from the source.
-/

deriving instance DecidableEq for Except

/-- Python exception classes raised by the code under scrutiny. -/
inductive PyError where
  | typeError (msg : String)
  | valueError (msg : String)
deriving DecidableEq

/-- Which phase of the code a forward pass belongs to. -/
inductive Phase where
  | trainP
  | evalP
  | testP
deriving DecidableEq

/-- Observable actions of the embedded code, in program order.
`forwardEv ph tr g` records a network forward pass during phase `ph`, with the
module's `training` flag equal to `tr` and autograd gradient tracking equal to
`g`.  `saveModel` and `plotLosses` are the persistence side effects. -/
inductive Event where
  | toDevice (d : String)
  | seedSet (n : ℤ)
  | epochStart (e : ℕ)
  | forwardEv (ph : Phase) (tr : Bool) (g : Bool)
  | saveModel (path : String)
  | plotLosses (trainTrace evalTrace : List ℚ) (path : String)
  | processPair (i : ℕ)
  | serializeCall (n : ℕ)
deriving DecidableEq

/-- The Python value passed as `seed` to `training_loop`.  The source declares
`seed: int=None` but nothing enforces the annotation, so non-integer values
can arrive; we model `None`, `int`, `float` and `str` values. -/
inductive PySeed where
  | pynone
  | int (n : ℤ)
  | float (q : ℚ)
  | str (s : String)
deriving DecidableEq

/-- Python truthiness of a seed value (`if seed:`): `None`, `0`, `0.0` and
`""` are falsy, everything else is truthy. -/
def PySeed.truthy : PySeed → Bool
  | .pynone => false
  | .int n => n != 0
  | .float q => q != 0
  | .str s => s != ""

/-- `isinstance(seed, int)` for the modelled seed values. -/
def PySeed.isInt : PySeed → Bool
  | .int _ => true
  | _ => false

/-- The integer payload of an integer seed (junk value `0` otherwise; only
used after `isInt` has been checked, as in the source). -/
def PySeed.intVal : PySeed → ℤ
  | .int n => n
  | _ => 0

/-- Python `int(x)` on a float: truncation toward zero.  On a rational
`num/den` (with positive denominator) this is the truncating integer
division of the numerator by the denominator. -/
def pyIntTrunc (x : ℚ) : ℤ :=
  Int.tdiv x.num (x.den : ℤ)

/-- `int(np.sqrt n)` for a natural array size `n`: the integer square root
(the largest `k` with `k * k ≤ n`; `np.sqrt` is exact on the array sizes in
play, and `int` truncates). -/
def intSqrt (n : ℕ) : ℕ :=
  ((List.range (n + 1)).filter (fun k => k * k ≤ n)).foldl max 0

/-- Numpy `astype(np.uint8)` on a float value: truncate toward zero, then
wrap into the unsigned byte range. -/
def astype_uint8 (x : ℚ) : ℕ :=
  ((pyIntTrunc x) % 256).toNat

/-- The rescaling applied in `test_loop_serialized`:
`model(input).numpy()*255` followed by `astype(np.uint8)`, per value. -/
def rescale_to_u8 (x : ℚ) : ℕ :=
  astype_uint8 (x * 255)

/-- Embedding of `visualize_flat_u8int` (src/utils.py lines 158-170): take the
last-axis length, compute `int(np.sqrt(dim))`, and attempt to reshape to the
square `(sqrt_dim, sqrt_dim)`.  The reshape succeeds exactly when
`sqrt_dim * sqrt_dim = dim`; otherwise the broad `except` re-raises
`ValueError("Image must be square.")`.  `np.sqrt` followed by `int()` is the
integer square root for the array sizes in play. -/
def visualize_flat_u8int (image : List ℕ) : Except PyError Unit :=
  let dim := image.length
  let sqrt_dim := intSqrt dim
  if sqrt_dim * sqrt_dim = dim then
    Except.ok ()
  else
    Except.error (PyError.valueError "Image must be square.")

/-- The test-set pickle contents: parallel lists `pixelated_images` and
`known_arrays`; each array is modelled as a flat list of values. -/
structure TestFile where
  pixelated_images : List (List ℚ)
  known_arrays : List (List ℚ)

/-- Embedding of `test_loop_serialized` (src/utils.py lines 109-130).
`model` abstracts the loaded network's forward pass (called in eval mode and
under `torch.no_grad()`).  The source iterates `zip(pixelated_images,
known_arrays)`, but the loop body ends in an unconditional `break`, so at most
the first pair is processed; the prediction is handed to
`visualize_flat_u8int` (which may raise), it is never appended to
`predictions`, and `serialize` is never called.  The result carries the final
`predictions` list and the event trace. -/
def test_loop_serialized (model : List ℚ → List ℚ) (file : TestFile) :
    Except PyError (List (List ℕ) × List Event) :=
  let predictions : List (List ℕ) := []
  match file.pixelated_images.zip file.known_arrays with
  | [] => Except.ok (predictions, [])
  | (pixelated_image, known_array) :: _ =>
    let input := pixelated_image ++ known_array
    let pred := (model input).map rescale_to_u8
    match visualize_flat_u8int pred with
    | Except.error e => Except.error e
    | Except.ok _ =>
      Except.ok (predictions, [Event.processPair 0, Event.forwardEv Phase.testP false false])

/-- State of a `torch.nn.Module` as far as the loop observes it: the
train/eval mode flag and the parameter vector (type `P`, abstract). -/
structure Net (P : Type) where
  training : Bool
  params : P
deriving DecidableEq

/-- The state of torch's default random number generator, abstract. -/
abbrev RNG := ℕ

/-- Abstract network / loss-function / optimizer collaborators.
`forward p b` is the scalar loss `loss_function(network(batch), target)` for
batch `b` under parameters `p`; `gradStep p b` is the effect on the
parameters of `loss.backward()` followed by `optimizer.step()` on that
batch. -/
structure Model (P : Type) where
  forward : P → List ℕ → ℚ
  gradStep : P → List ℕ → P

/-- Abstract torch randomness collaborators: `manualSeed` is the generator
state set by `torch.manual_seed`, `randomSplit` partitions the dataset (a
list of sample indices) given the split fractions, and `shuffle` is the
per-epoch `DataLoader` reshuffle.  Each returns the successor generator
state. -/
structure TorchRandom where
  manualSeed : ℤ → RNG
  randomSplit : RNG → List ℕ → ℚ × ℚ → (List ℕ × List ℕ) × RNG
  shuffle : RNG → List ℕ → List ℕ × RNG

/-- `torch.mean(torch.stack(losses))`: the arithmetic mean. -/
def meanQ (l : List ℚ) : ℚ :=
  l.sum / (l.length : ℚ)

/-- Structural worker for `chunksOf`: the fuel bounds the number of batches
(each batch consumes at least the head element, so the list length is enough
fuel). -/
def chunksOfAux (bs : ℕ) : ℕ → List ℕ → List (List ℕ)
  | _, [] => []
  | 0, _ :: _ => []
  | fuel + 1, x :: xs => (x :: xs.take (bs - 1)) :: chunksOfAux bs fuel (xs.drop (bs - 1))

/-- `DataLoader` batching: split the (already shuffled) sample list into
consecutive batches of `bs` samples, the final batch possibly smaller. -/
def chunksOf (bs : ℕ) (l : List ℕ) : List (List ℕ) :=
  chunksOfAux bs l.length l

/-- Train phase over the batches of one epoch (src/utils.py lines 55-72):
per batch, clear gradients, forward pass (recorded with the module's mode
flag and the ambient gradient-tracking flag `g`), backpropagate and step the
optimizer (`gradStep`), and append the detached loss.  The loss recorded for
a batch is computed from the parameters before that batch's update. -/
def trainPhase {P : Type} (M : Model P) (g : Bool) :
    Net P → List (List ℕ) → Net P × List ℚ × List Event
  | net, [] => (net, [], [])
  | net, b :: bs =>
    let loss := M.forward net.params b
    let net' := { net with params := M.gradStep net.params b }
    let rest := trainPhase M g net' bs
    (rest.1, loss :: rest.2.1, Event.forwardEv Phase.trainP net.training g :: rest.2.2)

/-- Eval-phase batch iteration (src/utils.py lines 78-85): forward pass and
loss per batch, no backward call and no optimizer step; each forward is
recorded with the module's mode flag and the ambient gradient-tracking flag
`g` (the source wraps nothing in `torch.no_grad()`). -/
def evalBatches {P : Type} (M : Model P) (g : Bool) (net : Net P) :
    List (List ℕ) → List ℚ × List Event
  | [] => ([], [])
  | b :: bs =>
    let loss := M.forward net.params b
    let rest := evalBatches M g net bs
    (loss :: rest.1, Event.forwardEv Phase.evalP net.training g :: rest.2)

/-- Eval phase of one epoch (src/utils.py lines 74-85): `network.eval()`
then loss per eval batch; returns the network, the per-batch losses and the
events. -/
def evalPhase {P : Type} (M : Model P) (g : Bool) (net : Net P)
    (batches : List (List ℕ)) : Net P × List ℚ × List Event :=
  let net' := { net with training := false }
  let rest := evalBatches M g net' batches
  (net', rest.1, rest.2)

/-- One full epoch (src/utils.py lines 52-85): `network.train()`, reshuffle
and batch the train split, run the train phase, aggregate by mean; reshuffle
and batch the eval split, run the eval phase, aggregate by mean.  Returns
the new `(net, rng)` state, the two epoch losses, and the events. -/
def doEpoch {P : Type} (M : Model P) (tr : TorchRandom) (traind evald : List ℕ)
    (bs : ℕ) (g : Bool) (st : Net P × RNG) :
    (Net P × RNG) × ℚ × ℚ × List Event :=
  let net0 := { st.1 with training := true }
  let sh1 := tr.shuffle st.2 traind
  let tres := trainPhase M g net0 (chunksOf bs sh1.1)
  let trainLoss := meanQ tres.2.1
  let sh2 := tr.shuffle sh1.2 evald
  let eres := evalPhase M g tres.1 (chunksOf bs sh2.1)
  let evalLoss := meanQ eres.2.1
  ((eres.1, sh2.2), trainLoss, evalLoss, tres.2.2 ++ eres.2.2)

/-- `min(eval_losses)` for a nonempty Python list: left fold of binary min
(junk value 0 on the empty list, on which the source would raise). -/
def listMinQ : List ℚ → ℚ
  | [] => 0
  | [x] => x
  | x :: y :: t => min x (listMinQ (y :: t))

/-- `list.index(v)`: index of the first occurrence of `v` (length if absent;
the source only calls it on a present value). -/
def indexOfQ (v : ℚ) : List ℚ → ℕ
  | [] => 0
  | x :: xs => if x = v then 0 else indexOfQ v xs + 1

/-- `eval_losses.index(min(eval_losses))` (src/utils.py line 89): the index
of the first occurrence of the minimum. -/
def minIndexQ (l : List ℚ) : ℕ :=
  indexOfQ (listMinQ l) l

/-- Mutable state of the epoch loop: network, generator, the two loss
traces, and the event trace. -/
structure LoopState (P : Type) where
  net : Net P
  rng : RNG
  trainTrace : List ℚ
  evalTrace : List ℚ
  events : List Event
deriving DecidableEq

/-- The epoch loop (src/utils.py lines 52-98): for each remaining epoch run
`doEpoch`, append the two mean losses, and if early stopping is enabled and
`len(eval_losses) - 1 - eval_losses.index(min(eval_losses)) == patience`,
return immediately with the stopping epoch.  `fuel` is the number of
remaining epochs of `range(num_epochs)` and `e` the current epoch index. -/
def runEpochs {P : Type} (M : Model P) (tr : TorchRandom) (traind evald : List ℕ)
    (bs : ℕ) (g : Bool) (es : Bool) (patience : ℕ) :
    ℕ → ℕ → LoopState P → LoopState P × Option ℕ
  | 0, _, s => (s, none)
  | fuel + 1, e, s =>
    let step := doEpoch M tr traind evald bs g (s.net, s.rng)
    let s' : LoopState P :=
      { net := step.1.1, rng := step.1.2,
        trainTrace := s.trainTrace ++ [step.2.1],
        evalTrace := s.evalTrace ++ [step.2.2.1],
        events := s.events ++ [Event.epochStart e] ++ step.2.2.2 }
    if es then
      if s'.evalTrace.length - 1 - minIndexQ s'.evalTrace = patience then
        (s', some e)
      else
        runEpochs M tr traind evald bs g es patience fuel (e + 1) s'
    else
      runEpochs M tr traind evald bs g es patience fuel (e + 1) s'

/-- The loop-state update of one iteration of the epoch loop: run `doEpoch`
on the current `(net, rng)`, append the two mean losses, and record the
epoch events.  `runEpochs` performs exactly this update each iteration. -/
def epochPush {P : Type} (M : Model P) (tr : TorchRandom) (traind evald : List ℕ)
    (bs : ℕ) (g : Bool) (e : ℕ) (s : LoopState P) : LoopState P :=
  { net := (doEpoch M tr traind evald bs g (s.net, s.rng)).1.1,
    rng := (doEpoch M tr traind evald bs g (s.net, s.rng)).1.2,
    trainTrace := s.trainTrace ++ [(doEpoch M tr traind evald bs g (s.net, s.rng)).2.1],
    evalTrace := s.evalTrace ++ [(doEpoch M tr traind evald bs g (s.net, s.rng)).2.2.1],
    events := s.events ++ [Event.epochStart e] ++ (doEpoch M tr traind evald bs g (s.net, s.rng)).2.2.2 }

/-- The keyword configuration of `training_loop`. -/
structure TLConfig where
  numEpochs : ℕ
  splits : ℚ × ℚ
  minibatchSize : ℕ
  earlyStopping : Bool
  patience : ℕ
  seed : PySeed
  modelPath : Option String
  lossesPath : Option String
  tryCuda : Bool
deriving DecidableEq

/-- The seed handling of `training_loop` (src/utils.py lines 29-32):
`if seed:` (truthiness!), then `isinstance(seed, int)` or
`TypeError("Seed must be integer.")`, then `torch.manual_seed(seed)`.
Returns the generator state to use afterwards and the emitted events;
with a falsy seed the ambient generator state `g0` passes through. -/
def seedStage (tr : TorchRandom) (s : PySeed) (g0 : RNG) :
    Except PyError (RNG × List Event) :=
  if s.truthy then
    if ¬ s.isInt then
      Except.error (PyError.typeError "Seed must be integer.")
    else
      Except.ok (tr.manualSeed s.intVal, [Event.seedSet s.intVal])
  else
    Except.ok (g0, [])

/-- `path and isinstance(path, str)` for the optional output paths: truthy
means a non-`None`, nonempty string. -/
def pathGiven : Option String → Bool
  | none => false
  | some p => p != ""

/-- Everything `training_loop` has produced when it returns.  The Python
function's return value is `None`; these fields exist so that theorems can
speak about the traces, events, partition and exit mode of a run. -/
structure RunResult (P : Type) where
  trainTrace : List ℚ
  evalTrace : List ℚ
  events : List Event
  finalNet : Net P
  trainIdx : List ℕ
  evalIdx : List ℕ
  earlyStopped : Option ℕ
deriving DecidableEq

/-- Embedding of `training_loop` (src/utils.py lines 19-107).
Parameters: `M` the abstract network/optimizer, `tr` the abstract torch
randomness, `t0`/`p0` the passed network's mode flag and parameters,
`cudaAvail` whether `torch.cuda.is_available()`, `cfg` the keyword
configuration, `data` the dataset (sample indices), `g0` the ambient default
generator state at call time, and `g` the ambient autograd
gradient-tracking mode at call time (`true` under torch defaults; the
source never toggles it).

Control flow translated from the source: resolve device and move the model;
seed handling; `if int(sum(splits)) != 1: raise ValueError(...)`;
`random_split`; the epoch loop; then (on both the early-stopping return and
the normal return, whose bodies are textually identical in the source) move
the model to cpu and persist the checkpoint and the loss plot when the
respective path is given.  The Python return value is `None`; see
`callerView`. -/
def training_loop {P : Type} (M : Model P) (tr : TorchRandom) (t0 : Bool) (p0 : P)
    (cudaAvail : Bool) (cfg : TLConfig) (data : List ℕ) (g0 : RNG) (g : Bool) :
    Except PyError (RunResult P) :=
  let device := if cudaAvail && cfg.tryCuda then "cuda" else "cpu"
  let ev0 := [Event.toDevice device]
  match seedStage tr cfg.seed g0 with
  | Except.error e => Except.error e
  | Except.ok (rng1, evSeed) =>
    if pyIntTrunc (cfg.splits.1 + cfg.splits.2) ≠ 1 then
      Except.error (PyError.valueError "Splits must sum to 1.")
    else
      let split := tr.randomSplit rng1 data cfg.splits
      let s0 : LoopState P :=
        { net := { training := t0, params := p0 }, rng := split.2,
          trainTrace := [], evalTrace := [], events := ev0 ++ evSeed }
      let run := runEpochs M tr split.1.1 split.1.2 cfg.minibatchSize g
        cfg.earlyStopping cfg.patience cfg.numEpochs 0 s0
      let s1 := run.1
      let evPersist := [Event.toDevice "cpu"]
        ++ (if pathGiven cfg.modelPath then [Event.saveModel (cfg.modelPath.getD "")] else [])
        ++ (if pathGiven cfg.lossesPath then
              [Event.plotLosses s1.trainTrace s1.evalTrace (cfg.lossesPath.getD "")] else [])
      Except.ok
        { trainTrace := s1.trainTrace, evalTrace := s1.evalTrace,
          events := s1.events ++ evPersist, finalNet := s1.net,
          trainIdx := split.1.1, evalIdx := split.1.2, earlyStopped := run.2 }

/-- What the Python caller receives: `training_loop` is annotated and
implemented to return `None`, so a completed run yields no value. -/
def callerView {P : Type} (r : Except PyError (RunResult P)) : Except PyError Unit :=
  r.map (fun _ => ())

/-- Whether an event is a persistence side effect (checkpoint or plot
file). -/
def isPersistEvent : Event → Bool
  | Event.saveModel _ => true
  | Event.plotLosses _ _ _ => true
  | _ => false

/-- The persisted artifacts of a run (empty when the call raised). -/
def persistedEvents {P : Type} : Except PyError (RunResult P) → List Event
  | Except.error _ => []
  | Except.ok r => r.events.filter isPersistEvent

/-- Everything observable from outside a call of `training_loop`: the return
value and the persisted artifacts. -/
def observe {P : Type} (r : Except PyError (RunResult P)) :
    Except PyError Unit × List Event :=
  (callerView r, persistedEvents r)

/-- The `(net, rng)` state just before epoch `e`, obtained by iterating
`doEpoch` from the post-split state `st0`; this is what the loop would hold
at epoch `e` if it reaches it. -/
def stateAt {P : Type} (M : Model P) (tr : TorchRandom) (traind evald : List ℕ)
    (bs : ℕ) (g : Bool) (st0 : Net P × RNG) : ℕ → Net P × RNG
  | 0 => st0
  | e + 1 => (doEpoch M tr traind evald bs g (stateAt M tr traind evald bs g st0 e)).1

/-- The mean eval loss the loop records at epoch `e` (if it reaches it). -/
def evalLossAt {P : Type} (M : Model P) (tr : TorchRandom) (traind evald : List ℕ)
    (bs : ℕ) (g : Bool) (st0 : Net P × RNG) (e : ℕ) : ℚ :=
  (doEpoch M tr traind evald bs g (stateAt M tr traind evald bs g st0 e)).2.2.1

/-- The first epoch `e` (searching `fuel` epochs from `e0`) at which the
early-stopping condition
`e - eval_losses.index(min(eval_losses[0..e])) == patience` holds for the
eval-loss sequence `L`. -/
def findStop (L : ℕ → ℚ) (patience : ℕ) : ℕ → ℕ → Option ℕ
  | 0, _ => none
  | fuel + 1, e =>
    if e - minIndexQ ((List.range (e + 1)).map L) = patience then some e
    else findStop L patience fuel (e + 1)

/-- Torch's default autograd mode: gradient tracking enabled. -/
def torchDefaultGradMode : Bool := true

/-- The eval-loss sequence (as a function of the epoch index) that a run of
`training_loop` with a falsy seed determines: the split is drawn from the
ambient generator state `g0` and the loop state evolves by `doEpoch` from the
freshly passed network `⟨t0, p0⟩`.  `training_loop` records exactly the
prefix of this sequence up to the epoch at which it stops. -/
def lossSeqOf {P : Type} (M : Model P) (tr : TorchRandom) (t0 : Bool) (p0 : P)
    (cfg : TLConfig) (data : List ℕ) (g0 : RNG) (g : Bool) : ℕ → ℚ :=
  evalLossAt M tr (tr.randomSplit g0 data cfg.splits).1.1
    (tr.randomSplit g0 data cfg.splits).1.2 cfg.minibatchSize g
    ⟨{ training := t0, params := p0 }, (tr.randomSplit g0 data cfg.splits).2⟩

/-- Concrete network family for witnesses/counterexamples: the parameter is
a step counter, the optimizer step increments it, and the per-batch loss is
`f` applied to the counter. -/
def Mseq (f : ℕ → ℚ) : Model ℕ :=
  { forward := fun p _ => f p, gradStep := fun p _ => p + 1 }

/-- Concrete torch randomness for witnesses/counterexamples: `manual_seed`
maps the seed to its absolute value, `random_split` rotates the dataset by
the generator state and halves it, and the reshuffle is the identity. -/
def trc : TorchRandom :=
  { manualSeed := fun n => n.natAbs,
    randomSplit := fun rng data _ =>
      (((data.rotate rng).take (data.length / 2),
        (data.rotate rng).drop (data.length / 2)), rng),
    shuffle := fun rng l => (l, rng) }

/-- Base concrete configuration for witnesses/counterexamples. -/
def cfgBase : TLConfig :=
  { numEpochs := 6, splits := (1/2, 1/2), minibatchSize := 1,
    earlyStopping := true, patience := 2, seed := PySeed.pynone,
    modelPath := none, lossesPath := none, tryCuda := false }

/-- Loss profile whose eval-loss sequence is 5, 6, 7, 1, 2, 2, …: the
minimum first occurs at epoch 3, followed by two non-improving epochs. -/
def fCex : ℕ → ℚ
  | 1 => 5
  | 2 => 6
  | 3 => 7
  | 4 => 1
  | 5 => 2
  | 6 => 2
  | _ => 9

/-- Loss profile whose eval-loss sequence is 5, 1, 2, 3, 9, …: the minimum
first occurs at epoch 1, followed by non-improving epochs. -/
def fWit : ℕ → ℚ
  | 1 => 5
  | 2 => 1
  | 3 => 2
  | 4 => 3
  | _ => 9

/-- Constant loss profile with value 1. -/
def fone : ℕ → ℚ := fun _ => 1

/-- Constant loss profile with value 2. -/
def ftwo : ℕ → ℚ := fun _ => 2

/-- A concrete two-pair test file. -/
def file2 : TestFile :=
  { pixelated_images := [[0, 0], [0, 0]], known_arrays := [[1, 1], [1, 1]] }

/-- A concrete loaded inference model: the identity on the input array. -/
def tmId : List ℚ → List ℚ := fun l => l

unseal Rat.mul Rat.add Rat.sub Rat.inv

/-- C9: rescaling a normalized model output of 1.0 yields byte 255, and 0.0
yields byte 0 (src/utils.py lines 127-128). -/
theorem c9_rescale_bounds : rescale_to_u8 1 = 255 ∧ rescale_to_u8 0 = 0 := by
  decide

/-- C8: visualizing a flattened prediction of length 100 succeeds (reshaped to
10×10), while length 99 fails fast with the shape error
`ValueError("Image must be square.")` (src/utils.py lines 158-170). -/
theorem c8_visualize_square (img100 img99 : List ℕ)
    (h100 : img100.length = 100) (h99 : img99.length = 99) :
    visualize_flat_u8int img100 = Except.ok () ∧
      visualize_flat_u8int img99 =
        Except.error (PyError.valueError "Image must be square.") := by
  unfold visualize_flat_u8int
  rw [h100, h99]
  exact ⟨rfl, rfl⟩

/-- Witness for C8 at concrete inputs of lengths 100 and 99. -/
theorem c8_visualize_square_witness :
    visualize_flat_u8int (List.replicate 100 7) = Except.ok () ∧
      visualize_flat_u8int (List.replicate 99 7) =
        Except.error (PyError.valueError "Image must be square.") :=
  c8_visualize_square (List.replicate 100 7) (List.replicate 99 7) (by simp) (by simp)

/-- C2 (code bug): on a two-pair test file, `test_loop_serialized` processes
only the first pair (the loop body ends in an unconditional `break`), leaves
the `predictions` list empty, and never calls the serializer — contradicting
its own docstring, which requires gathering every rescaled prediction and
serializing the list. -/
theorem c2_test_loop_bug :
    (file2.pixelated_images.zip file2.known_arrays).length = 2 ∧
      test_loop_serialized tmId file2 =
        Except.ok ([], [Event.processPair 0, Event.forwardEv Phase.testP false false]) := by
  exact ⟨rfl, rfl⟩

/-- C3 (code bug): the split fractions (0.75, 0.75) are non-negative, do not
sum to 1.0, and yet `training_loop` raises no error and runs an epoch: the
source check `int(sum(splits)) != 1` truncates, accepting every sum in
[1, 2). -/
theorem c3_splits_truncation_bug :
    ((3 : ℚ)/4 + 3/4 ≠ 1) ∧
      pyIntTrunc ((3 : ℚ)/4 + 3/4) = 1 ∧
      (training_loop (Mseq fone) trc true 0 false
            { cfgBase with splits := (3/4, 3/4), numEpochs := 1 } [0, 1] 0 true).map
          (fun r => decide (Event.epochStart 0 ∈ r.events)) = Except.ok true := by
  refine ⟨by decide, by decide, by decide⟩

/-- C4 counterexample: the non-integer seed 0.0 is falsy, so the seed branch
is skipped and no `TypeError` is raised — the call completes normally. -/
theorem c4_counterexample :
    (PySeed.float 0).isInt = false ∧
      callerView (training_loop (Mseq fone) trc true 0 false
          { cfgBase with seed := PySeed.float 0, numEpochs := 1 } [0, 1] 0 true) =
        Except.ok () := by
  refine ⟨rfl, by decide⟩

/-- C4 amended: every truthy non-integer seed (for example any nonzero
fractional value) makes `training_loop` fail with
`TypeError("Seed must be integer.")`; no epoch runs (the embedded error
return precedes the split and the epoch loop). -/
theorem c4_seed_check_amended {P : Type} (M : Model P) (tr : TorchRandom) (t0 : Bool)
    (p0 : P) (ca : Bool) (cfg : TLConfig) (data : List ℕ) (g0 : RNG) (g : Bool)
    (h1 : cfg.seed.truthy = true) (h2 : cfg.seed.isInt = false) :
    training_loop M tr t0 p0 ca cfg data g0 g =
      Except.error (PyError.typeError "Seed must be integer.") := by
  simp [training_loop, seedStage, h1, h2]

/-- Witness for the amended C4 at the concrete seed 0.5. -/
theorem c4_seed_check_amended_witness :
    (PySeed.float (1/2)).truthy = true ∧ (PySeed.float (1/2)).isInt = false ∧
      training_loop (Mseq fone) trc true 0 false
          { cfgBase with seed := PySeed.float (1/2) } [0, 1] 0 true =
        Except.error (PyError.typeError "Seed must be integer.") :=
  ⟨by decide, rfl,
    c4_seed_check_amended (Mseq fone) trc true 0 false
      { cfgBase with seed := PySeed.float (1/2) } [0, 1] 0 true (by decide) rfl⟩

/-- C10: a falsy seed (the integer 0 or the float 0.0) skips the seed branch
entirely: the call behaves exactly as with `seed=None` (in particular no
`TypeError` for the fractional 0.0), the generator is not seeded (the
ambient state passes through unchanged, with no seed event), and therefore
the split is not a function of the seed: with seed 0.0 held fixed, two
ambient generator states yield different partitions. -/
theorem c10_falsy_seed_skip :
    (∀ (P : Type) (M : Model P) (tr : TorchRandom) (t0 : Bool) (p0 : P) (ca : Bool)
        (cfg : TLConfig) (data : List ℕ) (g0 : RNG) (g : Bool),
      training_loop M tr t0 p0 ca { cfg with seed := PySeed.float 0 } data g0 g =
          training_loop M tr t0 p0 ca { cfg with seed := PySeed.pynone } data g0 g ∧
        training_loop M tr t0 p0 ca { cfg with seed := PySeed.int 0 } data g0 g =
          training_loop M tr t0 p0 ca { cfg with seed := PySeed.pynone } data g0 g) ∧
      (∀ (tr : TorchRandom) (g0 : RNG),
        seedStage tr (PySeed.float 0) g0 = Except.ok (g0, []) ∧
          seedStage tr (PySeed.int 0) g0 = Except.ok (g0, [])) ∧
      (training_loop (Mseq fone) trc true 0 false
            { cfgBase with seed := PySeed.float 0, numEpochs := 1 } [0, 1] 0 true).map
          (fun r => (r.trainIdx, r.evalIdx)) ≠
        (training_loop (Mseq fone) trc true 0 false
            { cfgBase with seed := PySeed.float 0, numEpochs := 1 } [0, 1] 1 true).map
          (fun r => (r.trainIdx, r.evalIdx)) := by
  refine ⟨fun P M tr t0 p0 ca cfg data g0 g => ⟨rfl, rfl⟩, fun tr g0 => ⟨rfl, rfl⟩, by decide⟩

/-- C7 counterexample: with the seed value 0 held constant (a falsy value,
so the generator is never seeded), two runs on the same dataset and
configuration but different ambient generator states produce different
train/eval partitions. -/
theorem c7_counterexample :
    (training_loop (Mseq fone) trc true 0 false
          { cfgBase with seed := PySeed.int 0, numEpochs := 1 } [0, 1] 0 true).map
        (fun r => (r.trainIdx, r.evalIdx)) ≠
      (training_loop (Mseq fone) trc true 0 false
          { cfgBase with seed := PySeed.int 0, numEpochs := 1 } [0, 1] 1 true).map
        (fun r => (r.trainIdx, r.evalIdx)) := by
  decide

/-- C7 amended: for a nonzero integer seed held constant, two runs of
`training_loop` with the same dataset and configuration produce identical
train/eval partitions — the seeded generator state replaces the ambient one,
making the partition independent of it. -/
theorem c7_seed_determinism_amended {P : Type} (M : Model P) (tr : TorchRandom)
    (t0 : Bool) (p0 : P) (ca : Bool) (cfg : TLConfig) (data : List ℕ)
    (g0 g0' : RNG) (g : Bool) (n : ℤ) (hs : cfg.seed = PySeed.int n) (hn : n ≠ 0) :
    (training_loop M tr t0 p0 ca cfg data g0 g).map (fun r => (r.trainIdx, r.evalIdx)) =
      (training_loop M tr t0 p0 ca cfg data g0' g).map (fun r => (r.trainIdx, r.evalIdx)) := by
  have ht : (PySeed.int n).truthy = true := by
    simp [PySeed.truthy, hn]
  have hseed : seedStage tr cfg.seed g0 = seedStage tr cfg.seed g0' := by
    simp [seedStage, hs, ht, PySeed.isInt]
  have h : training_loop M tr t0 p0 ca cfg data g0 g =
      training_loop M tr t0 p0 ca cfg data g0' g := by
    unfold training_loop
    rw [hseed]
  rw [h]

/-- Witness for the amended C7 at the concrete seed 5 and ambient states 0
and 1. -/
theorem c7_seed_determinism_amended_witness :
    ({ cfgBase with seed := PySeed.int 5, numEpochs := 1 } : TLConfig).seed =
        PySeed.int 5 ∧ (5 : ℤ) ≠ 0 ∧
      (training_loop (Mseq fone) trc true 0 false
            { cfgBase with seed := PySeed.int 5, numEpochs := 1 } [0, 1] 0 true).map
          (fun r => (r.trainIdx, r.evalIdx)) =
        (training_loop (Mseq fone) trc true 0 false
            { cfgBase with seed := PySeed.int 5, numEpochs := 1 } [0, 1] 1 true).map
          (fun r => (r.trainIdx, r.evalIdx)) :=
  ⟨rfl, by decide,
    c7_seed_determinism_amended (Mseq fone) trc true 0 false
      { cfgBase with seed := PySeed.int 5, numEpochs := 1 } [0, 1] 0 1 true 5 rfl
      (by decide)⟩

/-- C6 counterexample: with no `losses_path` (and no `model_path`), two runs
with different loss sequences are observationally identical — the return
value is `None` and nothing is persisted — so the traces are not delivered
to the caller, contradicting the claim that they are returned. -/
theorem c6_counterexample :
    observe (training_loop (Mseq fone) trc true 0 false
          { cfgBase with numEpochs := 1 } [0, 1] 0 true) =
        observe (training_loop (Mseq ftwo) trc true 0 false
          { cfgBase with numEpochs := 1 } [0, 1] 0 true) ∧
      (training_loop (Mseq fone) trc true 0 false
            { cfgBase with numEpochs := 1 } [0, 1] 0 true).map (fun r => r.evalTrace) ≠
        (training_loop (Mseq ftwo) trc true 0 false
            { cfgBase with numEpochs := 1 } [0, 1] 0 true).map (fun r => r.evalTrace) := by
  refine ⟨by decide, by decide⟩

/-- C6 amended: on every completed run (early-stopping exit or normal
completion alike), when a nonempty `losses_path` is given the two loss
traces are persisted as the loss plot; the function itself returns `None`,
so with no `losses_path` the traces are not observable to the caller. -/
theorem c6_traces_amended {P : Type} (M : Model P) (tr : TorchRandom) (t0 : Bool)
    (p0 : P) (ca : Bool) (cfg : TLConfig) (data : List ℕ) (g0 : RNG) (g : Bool)
    (p : String) (hseed : cfg.seed = PySeed.pynone)
    (hsum : pyIntTrunc (cfg.splits.1 + cfg.splits.2) = 1)
    (hp : cfg.lossesPath = some p) (hpne : p ≠ "") :
    (training_loop M tr t0 p0 ca cfg data g0 g).map
        (fun r => decide (Event.plotLosses r.trainTrace r.evalTrace p ∈ r.events)) =
      Except.ok true := by
  simp [training_loop, seedStage, hseed, PySeed.truthy, hsum, pathGiven, hp, hpne,
    Except.map, decide_eq_true_eq, List.mem_append, List.mem_cons]

/-- Witness for the amended C6 at a concrete run with `losses_path`
given. -/
theorem c6_traces_amended_witness :
    (training_loop (Mseq fone) trc true 0 false
          { cfgBase with numEpochs := 1, lossesPath := some "losses.jpg" } [0, 1] 0 true).map
        (fun r => decide (Event.plotLosses r.trainTrace r.evalTrace "losses.jpg" ∈ r.events)) =
      Except.ok true :=
  c6_traces_amended (Mseq fone) trc true 0 false
    { cfgBase with numEpochs := 1, lossesPath := some "losses.jpg" } [0, 1] 0 true
    "losses.jpg" rfl (by decide) rfl (by decide)

/-- All events recorded by the eval-phase batch iteration are forward passes
in the module's current mode under the ambient gradient flag. -/
lemma evalBatches_events {P : Type} (M : Model P) (g : Bool) (net : Net P) :
    ∀ (batches : List (List ℕ)),
      ∀ ev ∈ (evalBatches M g net batches).2, ev = Event.forwardEv Phase.evalP net.training g := by
  intro batches
  induction batches with
  | nil => simp [evalBatches]
  | cons b bs ih =>
    intro ev hev
    rcases List.mem_cons.mp hev with h | h
    · exact h
    · exact ih ev h

/-- C5 amended: the eval phase of an epoch puts the model in inference mode
and updates no parameter (the parameters after the eval phase equal those
before it), and every eval forward pass runs with the module's `training`
flag false — but under the ambient gradient-tracking flag `g`, which the
source never disables (there is no `torch.no_grad()` in the eval phase). -/
theorem c5_eval_phase_amended {P : Type} (M : Model P) (g : Bool) (net : Net P)
    (batches : List (List ℕ)) :
    (evalPhase M g net batches).1.params = net.params ∧
      (evalPhase M g net batches).1.training = false ∧
      ∀ ev ∈ (evalPhase M g net batches).2.2, ev = Event.forwardEv Phase.evalP false g := by
  refine ⟨rfl, rfl, ?_⟩
  intro ev hev
  exact evalBatches_events M g { net with training := false } batches ev hev

/-- Witness for the amended C5 at a concrete eval phase. -/
theorem c5_eval_phase_amended_witness :
    (evalPhase (Mseq fone) true { training := true, params := 0 } [[1]]).1.params =
        ({ training := true, params := 0 } : Net ℕ).params ∧
      (evalPhase (Mseq fone) true { training := true, params := 0 } [[1]]).1.training = false :=
  ⟨(c5_eval_phase_amended (Mseq fone) true { training := true, params := 0 } [[1]]).1,
    (c5_eval_phase_amended (Mseq fone) true { training := true, params := 0 } [[1]]).2.1⟩

/-- C5 counterexample: in a default call of `training_loop` (torch's ambient
gradient tracking enabled), an eval-phase forward pass runs with gradient
tracking enabled — the eval phase is not free of gradient tracking. -/
theorem c5_counterexample :
    (training_loop (Mseq ftwo) trc true 0 false
          { cfgBase with numEpochs := 1 } [0, 1] 0 torchDefaultGradMode).map
        (fun r => decide (Event.forwardEv Phase.evalP false true ∈ r.events)) =
      Except.ok true := by
  decide

/-- `listMinQ` is a lower bound of the list. -/
lemma listMinQ_le (l : List ℚ) : ∀ x ∈ l, listMinQ l ≤ x := by
  induction l with
  | nil => simp
  | cons a t ih =>
    cases t with
    | nil =>
      intro x hx
      rcases List.mem_singleton.mp hx with rfl
      exact le_refl _
    | cons b u =>
      intro x hx
      rcases List.mem_cons.mp hx with h | h
      · subst h
        exact min_le_left _ _
      · exact le_trans (min_le_right _ _) (ih x h)

/-- `listMinQ` of a nonempty list is an element of it. -/
lemma listMinQ_mem : ∀ (l : List ℚ), l ≠ [] → listMinQ l ∈ l := by
  intro l
  induction l with
  | nil => intro h; exact absurd rfl h
  | cons a t ih =>
    intro _
    cases t with
    | nil => exact List.mem_singleton.mpr rfl
    | cons b u =>
      show min a (listMinQ (b :: u)) ∈ a :: b :: u
      rcases le_total a (listMinQ (b :: u)) with h | h
      · rw [min_eq_left h]
        exact List.mem_cons_self _ _
      · rw [min_eq_right h]
        exact List.mem_cons_of_mem _ (ih (by simp))

/-- `indexOfQ` returns `i` when the element at `i` is `v` and no earlier
element is. -/
lemma indexOfQ_spec (v : ℚ) : ∀ (l : List ℚ) (i : ℕ) (hi : i < l.length),
    l.get ⟨i, hi⟩ = v → (∀ j (hj : j < i), l.get ⟨j, Nat.lt_trans hj hi⟩ ≠ v) →
    indexOfQ v l = i := by
  intro l
  induction l with
  | nil =>
    intro i hi
    exact absurd hi (by simp)
  | cons a t ih =>
    intro i hi hv hb
    cases i with
    | zero =>
      simp only [List.get] at hv
      simp [indexOfQ, hv]
    | succ n =>
      have ha : ¬ a = v := by
        have h0 := hb 0 (Nat.succ_pos n)
        simpa using h0
      simp only [indexOfQ, if_neg ha]
      have hn : n < t.length := Nat.lt_of_succ_lt_succ hi
      have hv' : t.get ⟨n, hn⟩ = v := by simpa using hv
      have hb' : ∀ j (hj : j < n), t.get ⟨j, Nat.lt_trans hj hn⟩ ≠ v := by
        intro j hj
        have := hb (j + 1) (Nat.succ_lt_succ hj)
        simpa using this
      rw [ih n hn hv' hb']

/-- One unfolding of the epoch loop with early stopping enabled. -/
lemma runEpochs_succ {P : Type} (M : Model P) (tr : TorchRandom) (traind evald : List ℕ)
    (bs : ℕ) (g : Bool) (pat : ℕ) (fuel e : ℕ) (s : LoopState P) :
    runEpochs M tr traind evald bs g true pat (fuel + 1) e s =
      if (epochPush M tr traind evald bs g e s).evalTrace.length - 1 -
          minIndexQ (epochPush M tr traind evald bs g e s).evalTrace = pat then
        (epochPush M tr traind evald bs g e s, some e)
      else
        runEpochs M tr traind evald bs g true pat fuel (e + 1)
          (epochPush M tr traind evald bs g e s) := rfl

/-- One unfolding of the stop search. -/
lemma findStop_succ (L : ℕ → ℚ) (pat : ℕ) (fuel e : ℕ) :
    findStop L pat (fuel + 1) e =
      if e - minIndexQ ((List.range (e + 1)).map L) = pat then some e
      else findStop L pat fuel (e + 1) := rfl

/-- First index of the minimum over a mapped range prefix: when `L k` is a
lower bound of `L 0 .. L e` and strictly below every earlier value, the
first occurrence of the minimum of `[L 0, …, L e]` is at index `k`. -/
lemma minIndexQ_map_range (L : ℕ → ℚ) (k e : ℕ) (hke : k ≤ e)
    (hmin : ∀ j, j ≤ e → L k ≤ L j) (hfirst : ∀ j, j < k → L k < L j) :
    minIndexQ ((List.range (e + 1)).map L) = k := by
  have hget : ∀ (j : ℕ) (hj : j < ((List.range (e + 1)).map L).length),
      ((List.range (e + 1)).map L).get ⟨j, hj⟩ = L j := by
    intro j hj
    simp
  have hnil : (List.range (e + 1)).map L ≠ [] := by simp
  have hLk : L k ∈ (List.range (e + 1)).map L :=
    List.mem_map.mpr ⟨k, List.mem_range.mpr (Nat.lt_succ_of_le hke), rfl⟩
  have hminv : listMinQ ((List.range (e + 1)).map L) = L k := by
    apply le_antisymm (listMinQ_le _ _ hLk)
    rcases List.mem_map.mp (listMinQ_mem _ hnil) with ⟨j, hj, hx⟩
    rw [← hx]
    exact hmin j (Nat.lt_succ_iff.mp (List.mem_range.mp hj))
  have hk : k < ((List.range (e + 1)).map L).length := by
    simpa using Nat.lt_succ_of_le hke
  unfold minIndexQ
  rw [hminv]
  apply indexOfQ_spec (L k) _ k hk (hget k hk)
  intro j hj
  rw [hget j (Nat.lt_trans hj hk)]
  exact (hfirst j hj).ne'

/-- `findStop` returns the first epoch at which the stopping condition
holds. -/
lemma findStop_first (L : ℕ → ℚ) (pat : ℕ) : ∀ (fuel e0 m : ℕ), e0 ≤ m → m < e0 + fuel →
    m - minIndexQ ((List.range (m + 1)).map L) = pat →
    (∀ e, e0 ≤ e → e < m → ¬(e - minIndexQ ((List.range (e + 1)).map L) = pat)) →
    findStop L pat fuel e0 = some m := by
  intro fuel
  induction fuel with
  | zero =>
    intro e0 m h1 h2 h3 h4
    exact absurd h2 (by omega)
  | succ fuel ih =>
    intro e0 m h1 h2 h3 h4
    by_cases he : e0 = m
    · subst he
      rw [findStop_succ, if_pos h3]
    · have hlt : e0 < m := lt_of_le_of_ne h1 he
      have hcond := h4 e0 le_rfl hlt
      rw [findStop_succ, if_neg hcond]
      exact ih (e0 + 1) m hlt (by omega) h3 (fun e he1 he2 => h4 e (by omega) he2)

/-- The epoch loop computes exactly the search `findStop` over the loss
sequence `evalLossAt`, and when it stops at epoch `m` the recorded eval
trace is the sequence's prefix of length `m + 1`. -/
lemma runEpochs_bridge {P : Type} (M : Model P) (tr : TorchRandom) (traind evald : List ℕ)
    (bs : ℕ) (g : Bool) (pat : ℕ) (st0 : Net P × RNG) :
    ∀ (fuel e : ℕ) (s : LoopState P),
      s.net = (stateAt M tr traind evald bs g st0 e).1 →
      s.rng = (stateAt M tr traind evald bs g st0 e).2 →
      s.evalTrace = (List.range e).map (evalLossAt M tr traind evald bs g st0) →
      (runEpochs M tr traind evald bs g true pat fuel e s).2
          = findStop (evalLossAt M tr traind evald bs g st0) pat fuel e
        ∧ ∀ m, findStop (evalLossAt M tr traind evald bs g st0) pat fuel e = some m →
            (runEpochs M tr traind evald bs g true pat fuel e s).1.evalTrace
              = (List.range (m + 1)).map (evalLossAt M tr traind evald bs g st0) := by
  intro fuel
  induction fuel with
  | zero =>
    intro e s hnet hrng hT
    refine ⟨rfl, ?_⟩
    intro m hm
    exact absurd hm (by simp [findStop])
  | succ fuel ih =>
    intro e s hnet hrng hT
    have hT' : (epochPush M tr traind evald bs g e s).evalTrace
        = (List.range (e + 1)).map (evalLossAt M tr traind evald bs g st0) := by
      show s.evalTrace ++ [(doEpoch M tr traind evald bs g (s.net, s.rng)).2.2.1] = _
      rw [hT, hnet, hrng, List.range_succ, List.map_append]
      rfl
    have hnet' : (epochPush M tr traind evald bs g e s).net
        = (stateAt M tr traind evald bs g st0 (e + 1)).1 := by
      show (doEpoch M tr traind evald bs g (s.net, s.rng)).1.1 = _
      rw [hnet, hrng]
      rfl
    have hrng' : (epochPush M tr traind evald bs g e s).rng
        = (stateAt M tr traind evald bs g st0 (e + 1)).2 := by
      show (doEpoch M tr traind evald bs g (s.net, s.rng)).1.2 = _
      rw [hnet, hrng]
      rfl
    have hlen : (epochPush M tr traind evald bs g e s).evalTrace.length - 1 = e := by
      rw [hT']
      simp
    rw [runEpochs_succ, findStop_succ, hlen, hT']
    by_cases hc : e - minIndexQ ((List.range (e + 1)).map
        (evalLossAt M tr traind evald bs g st0)) = pat
    · rw [if_pos hc, if_pos hc]
      refine ⟨rfl, ?_⟩
      intro m hm
      obtain rfl : e = m := Option.some.inj hm
      exact hT'
    · rw [if_neg hc, if_neg hc]
      exact ih (e + 1) (epochPush M tr traind evald bs g e s) hnet' hrng' hT'

/-- C1 amended: consider a run of `training_loop` with early stopping
enabled, patience `pat`, enough configured epochs, and an eval-loss sequence
(`lossSeqOf`, the sequence the run's dynamics determine) whose minimum first
occurs at epoch `k` (strictly below every earlier value, and at most every
value up to epoch `k + pat`, so ties after `k` resolve to the earliest
index) followed by `pat` consecutive non-improving epochs — and, in
addition, whose prefix before `k` never triggers the patience condition
(without this hypothesis the loop can stop before even reaching `k`; see the
counterexample).  Then the loop stops exactly at epoch `k + pat` — in
particular not at `k + pat - 1` — having recorded `k + pat + 1` eval
losses. -/
theorem c1_early_stop_amended {P : Type} (M : Model P) (tr : TorchRandom) (t0 : Bool)
    (p0 : P) (ca : Bool) (cfg : TLConfig) (data : List ℕ) (g0 : RNG) (g : Bool)
    (k pat : ℕ)
    (hseed : cfg.seed = PySeed.pynone)
    (hsum : pyIntTrunc (cfg.splits.1 + cfg.splits.2) = 1)
    (hes : cfg.earlyStopping = true)
    (hpat : cfg.patience = pat)
    (hN : k + pat < cfg.numEpochs)
    (hfirst : ∀ j, j < k →
      lossSeqOf M tr t0 p0 cfg data g0 g k < lossSeqOf M tr t0 p0 cfg data g0 g j)
    (hafter : ∀ j, j ≤ k + pat → k < j →
      lossSeqOf M tr t0 p0 cfg data g0 g k ≤ lossSeqOf M tr t0 p0 cfg data g0 g j)
    (hpre : ∀ e, e < k →
      ¬(e - minIndexQ ((List.range (e + 1)).map (lossSeqOf M tr t0 p0 cfg data g0 g)) = pat)) :
    (training_loop M tr t0 p0 ca cfg data g0 g).map
        (fun r => (r.earlyStopped, r.evalTrace.length)) =
      Except.ok (some (k + pat), k + pat + 1) := by
  have hminidx : ∀ e, k ≤ e → e ≤ k + pat →
      minIndexQ ((List.range (e + 1)).map (lossSeqOf M tr t0 p0 cfg data g0 g)) = k := by
    intro e hke hle
    apply minIndexQ_map_range _ k e hke _ hfirst
    intro j hj
    rcases Nat.lt_or_ge j k with h | h
    · exact le_of_lt (hfirst j h)
    · rcases Nat.eq_or_lt_of_le h with h' | h'
      · rw [← h']
      · exact hafter j (le_trans hj hle) h'
  have htrue : (k + pat) -
      minIndexQ ((List.range (k + pat + 1)).map (lossSeqOf M tr t0 p0 cfg data g0 g)) = pat := by
    rw [hminidx (k + pat) (Nat.le_add_right k pat) le_rfl]
    omega
  have hfalse : ∀ e, 0 ≤ e → e < k + pat →
      ¬(e - minIndexQ ((List.range (e + 1)).map (lossSeqOf M tr t0 p0 cfg data g0 g)) = pat) := by
    intro e _ he
    rcases Nat.lt_or_ge e k with h | h
    · exact hpre e h
    · rw [hminidx e h (by omega)]
      omega
  have hstop := findStop_first (lossSeqOf M tr t0 p0 cfg data g0 g) pat cfg.numEpochs 0
    (k + pat) (Nat.zero_le _) (by omega) htrue hfalse
  simp [training_loop, seedStage, hseed, PySeed.truthy, hsum, hes, hpat, Except.map]
  obtain ⟨hb1, hb2⟩ := runEpochs_bridge M tr (tr.randomSplit g0 data cfg.splits).1.1
    (tr.randomSplit g0 data cfg.splits).1.2 cfg.minibatchSize g pat
    ⟨{ training := t0, params := p0 }, (tr.randomSplit g0 data cfg.splits).2⟩
    cfg.numEpochs 0
    { net := { training := t0, params := p0 }, rng := (tr.randomSplit g0 data cfg.splits).2,
      trainTrace := [], evalTrace := [],
      events := [Event.toDevice (if ca = true ∧ cfg.tryCuda = true then "cuda" else "cpu")] }
    rfl rfl rfl
  constructor
  · rw [hb1]
    exact hstop
  · rw [hb2 (k + pat) hstop]
    simp

/-- C1 counterexample: a run whose eval-loss sequence is 5, 6, 7, 1, 2, 2
(minimum first at epoch k = 3, followed by patience = 2 non-improving
epochs, with more than k + patience configured epochs) satisfies the
claim's premises, yet the loop stops at epoch 2 — not at epoch
k + patience = 5 — because the patience condition already fires on the
plateau before the minimum (epochs 1 and 2 do not improve on epoch 0). -/
theorem c1_counterexample :
    (∀ j, j < 3 → lossSeqOf (Mseq fCex) trc true 0 cfgBase [0, 1] 0 true 3 <
        lossSeqOf (Mseq fCex) trc true 0 cfgBase [0, 1] 0 true j) ∧
      (∀ j, j ≤ 3 + 2 → 3 < j → lossSeqOf (Mseq fCex) trc true 0 cfgBase [0, 1] 0 true 3 ≤
        lossSeqOf (Mseq fCex) trc true 0 cfgBase [0, 1] 0 true j) ∧
      cfgBase.earlyStopping = true ∧ cfgBase.patience = 2 ∧ 3 + 2 < cfgBase.numEpochs ∧
      (training_loop (Mseq fCex) trc true 0 false cfgBase [0, 1] 0 true).map
          (fun r => r.earlyStopped) = Except.ok (some 2) ∧
      (some 2 : Option ℕ) ≠ some (3 + 2) := by
  refine ⟨by decide, by decide, rfl, rfl, by decide, by decide, by decide⟩

/-- Witness for the amended C1: a run with eval-loss sequence 5, 1, 2, 3, 9,
… (minimum first at epoch k = 1, patience 2, no trigger before epoch 1)
stops exactly at epoch k + patience = 3 with 4 recorded eval losses. -/
theorem c1_early_stop_amended_witness :
    (∀ j, j < 1 → lossSeqOf (Mseq fWit) trc true 0 cfgBase [0, 1] 0 true 1 <
        lossSeqOf (Mseq fWit) trc true 0 cfgBase [0, 1] 0 true j) ∧
      (training_loop (Mseq fWit) trc true 0 false cfgBase [0, 1] 0 true).map
          (fun r => (r.earlyStopped, r.evalTrace.length)) =
        Except.ok (some (1 + 2), 1 + 2 + 1) :=
  ⟨by decide,
    c1_early_stop_amended (Mseq fWit) trc true 0 false cfgBase [0, 1] 0 true 1 2
      rfl (by decide) rfl rfl (by decide) (by decide) (by decide) (by decide)⟩
